import Mathlib

/-!
Verification of the public-link sharing subsystem: the SQL public share
manager (package sql), its password hashing, capability-signature
authentication, expiration semantics and the orphan-marking sweep.

Machine integers are modelled as Nat (no claim here exercises overflow).
Database rows of the oc_share table are modelled as a Lean structure, the
table as a List Row, and each SQL statement as the corresponding pure
function on that list.  Wall-clock instants are Nat seconds; the sweep in
cleanupExpiredShares additionally needs the broken-down form (it formats
the current time), so it receives a DateTime.
-/

namespace PublicShareSQL

def publicShareType : Nat := 3

/-- projectInstancesPrefix in the source. -/
def projectInstancesPfx : String := "newproject"

/-- projectSpaceGroupsPrefix in the source. -/
def projectSpaceGroupsPfx : String := "cernbox-project-"

/-- projectSpaceAdminGroupsSuffix in the source. -/
def projectSpaceAdminGroupsSfx : String := "-admins"

structure Config where
  sharePasswordHashCost : Nat
  enableExpiredSharesCleanup : Bool
deriving Repr, DecidableEq

/-- One row of the oc_share table.  Field names follow the column names
(fileid_pref stands for the fileid_prefix column).  share_with holds the
password hash, with the empty string standing for NULL (reads coalesce the
column to the empty string).  expiration and orphan are nullable. -/
structure Row where
  id : Nat
  share_type : Nat
  uid_owner : String
  uid_initiator : String
  item_type : String
  fileid_pref : String
  item_source : String
  file_source : Nat
  permissions : Nat
  stime : Nat
  token : String
  share_name : String
  quicklink : Bool
  description : String
  internal : Bool
  share_with : String
  expiration : Option Nat
  orphan : Option Bool
deriving Repr, DecidableEq

structure Signature where
  sig : String
  exp : Nat
deriving Repr, DecidableEq

/-- The CS3 link.PublicShare message as populated by this subsystem. -/
structure PublicShare where
  id : Nat
  token : String
  owner : String
  creator : String
  storageId : String
  opaqueId : String
  permissions : Nat
  ctime : Nat
  expiration : Option Nat
  passwordProtected : Bool
  displayName : String
  quicklink : Bool
  description : String
  signature : Option Signature
deriving Repr, DecidableEq

/-- Error kinds of the errtypes package that this subsystem raises
(payload strings are abstracted away). -/
inductive Err where
  | notFound
  | invalidCredentials
  | internalError
deriving Repr, DecidableEq

/-- Modelled from the spec: conversions.ConvertToCS3PublicShare
(pkg/cbox/utils is not under src/).  Maps a DB row to the CS3 share;
passwordProtected is derived, true iff share_with is non-empty. -/
def convertToCS3PublicShare (r : Row) : PublicShare :=
  { id := r.id
    token := r.token
    owner := r.uid_owner
    creator := r.uid_initiator
    storageId := r.fileid_pref
    opaqueId := r.item_source
    permissions := r.permissions
    ctime := r.stime
    expiration := r.expiration
    passwordProtected := decide (r.share_with ≠ "")
    displayName := r.share_name
    quicklink := r.quicklink
    description := r.description
    signature := none }

/-- expired in the source: a share is expired iff its expiration is set and
strictly before the current instant. -/
def expired (s : PublicShare) (now : Nat) : Bool :=
  match s.expiration with
  | some e => decide (e < now)
  | none => false

/-- Go strings.HasPrefix, on the character data. -/
def hasPfx (s pre : String) : Bool :=
  pre.data.isPrefixOf s.data

/-- Go strings.TrimPrefix, on the character data. -/
def trimPfx (s pre : String) : String :=
  if pre.data.isPrefixOf s.data then String.mk (s.data.drop pre.data.length) else s

/-- Modelled from the spec: bcrypt.GenerateFromPassword from
golang.org/x/crypto/bcrypt (external library, not part of this repository).
Modelled by its contract: an adaptive hash in the "$2a$..." format whose
comparison succeeds exactly on the hashed plaintext.  Salt and the encoded
cost parameter are abstracted away (they only tune the work factor). -/
def bcryptGenerateFromPassword (password : String) (cost : Nat) : String :=
  "$2a$" ++ password

/-- Modelled from the spec: bcrypt.CompareHashAndPassword.  Succeeds exactly
when the stored hash is the hash of the candidate; a malformed hash is
reported as a mismatch (Go returns an error, never panics). -/
def bcryptCompareHashAndPassword (hash password : String) : Bool :=
  hash == bcryptGenerateFromPassword password 0

/-- hashPassword in the source: prepends the hash-version tag "1|". -/
def hashPassword (password : String) (cost : Nat) : String :=
  "1|" ++ bcryptGenerateFromPassword password cost

/-- checkPasswordHash in the source: strips the version tag and delegates. -/
def checkPasswordHash (password hash : String) : Bool :=
  bcryptCompareHashAndPassword (trimPfx hash "1|") password

/-- Modelled from the spec: publicshare.CreateSignature (pkg/publicshare is
not under src/).  An HMAC-like signature binding token, secret and
expiration; deterministic given identical inputs, so modelled as an
injective encoding of the three inputs. -/
def createSignature (tkn secret : String) (e : Nat) : String :=
  tkn ++ ":" ++ secret ++ ":" ++ toString e

/-- Validity window of a freshly attached capability signature
(implementation-defined in the spec). -/
def sigValidity : Nat := 3600

/-- Modelled from the spec: publicshare.AddSignature (pkg/publicshare is not
under src/).  Attaches a freshly derived capability signature valid for an
implementation-defined window. -/
def addSignature (s : PublicShare) (pw : String) (now : Nat) : PublicShare :=
  { s with signature := some { sig := createSignature s.token pw (now + sigValidity)
                               exp := now + sigValidity } }

structure PublicShareAuthentication where
  password : String
  signature : Option Signature
deriving Repr, DecidableEq

/-- authenticate in the source.  A non-empty password is checked against the
stored hash; otherwise a signature, if present, is rejected when now is
strictly after its claimed expiration and otherwise compared against the
freshly computed signature; any other attempt fails.  (CreateSignature
failures, modelled total, cannot occur.) -/
def authenticate (share : PublicShare) (pw : String) (now : Nat)
    (auth : PublicShareAuthentication) : Bool :=
  if auth.password ≠ "" then
    checkPasswordHash auth.password pw
  else
    match auth.signature with
    | some sig =>
      if now > sig.exp then false
      else sig.sig == createSignature share.token pw sig.exp
    | none => false

/-- Broken-down wall-clock instant (day = days since the epoch). -/
structure DateTime where
  day : Nat
  hour : Nat
  minute : Nat
  second : Nat
deriving Repr, DecidableEq

def DateTime.toSec (d : DateTime) : Nat :=
  ((d.day * 24 + d.hour) * 60 + d.minute) * 60 + d.second

/-- The hour as rendered by the Go layout fragment "03": a 12-hour clock
without an AM/PM marker.  Hours 13..23 render as 1..11 and hours 0 and 12
both render as 12. -/
def hour12 (h : Nat) : Nat :=
  if h % 12 == 0 then 12 else h % 12

/-- The cutoff instant the sweep actually compares against: the current time
formatted with layout "2006-01-02 03:04:05" and re-parsed by the store as a
24-hour datetime. -/
def cleanupCutoff (now : DateTime) : Nat :=
  DateTime.toSec { now with hour := hour12 now.hour }

/-- cleanupExpiredShares in the source: a no-op unless cleanup is enabled;
otherwise one bulk update setting orphan = 1 on every row (of any share
type) whose expiration is set and below the formatted cutoff. -/
def cleanupExpiredShares (c : Config) (db : List Row) (now : DateTime) : List Row :=
  if c.enableExpiredSharesCleanup then
    db.map fun r =>
      match r.expiration with
      | some e => if e < cleanupCutoff now then { r with orphan := some true } else r
      | none => r
  else db

/-- WHERE clause of getByToken: (orphan = 0 or orphan IS NULL) AND
share_type=? AND token=?. -/
def activeTokenPred (tkn : String) (r : Row) : Bool :=
  decide (r.orphan ≠ some true ∧ r.share_type = publicShareType ∧ r.token = tkn)

/-- WHERE clause of getByID: (orphan = 0 or orphan IS NULL) AND share_type=?
AND id=? AND (uid_owner=? OR uid_initiator=?). -/
def activeIdPred (i : Nat) (uid : String) (r : Row) : Bool :=
  decide (r.orphan ≠ some true ∧ r.share_type = publicShareType ∧ r.id = i ∧
    (r.uid_owner = uid ∨ r.uid_initiator = uid))

/-- WHERE clause of the GetPublicShareByToken query: share_type=? AND
token=? (no orphan condition). -/
def anyTokenPred (tkn : String) (r : Row) : Bool :=
  decide (r.share_type = publicShareType ∧ r.token = tkn)

/-- getByToken in the source. -/
def getByToken (db : List Row) (tkn : String) : Except Err (PublicShare × String) :=
  match db.find? (activeTokenPred tkn) with
  | some r => .ok (convertToCS3PublicShare r, r.share_with)
  | none => .error .notFound

/-- getByID in the source. -/
def getByID (db : List Row) (i : Nat) (uid : String) : Except Err (PublicShare × String) :=
  match db.find? (activeIdPred i uid) with
  | some r => .ok (convertToCS3PublicShare r, r.share_with)
  | none => .error .notFound

/-- A PublicShareReference: either an opaque id or a token.  (The Go message
with neither field set maps to no constructor; every operation returns
NotFound on it, which the byToken "" case also exercises faithfully for
GetPublicShare and token-based Update.) -/
inductive ShareRef where
  | byId (id : Nat)
  | byToken (tkn : String)
deriving Repr, DecidableEq

/-- GetPublicShare in the source.  Returns the result together with the
store contents afterwards (the expired branch runs the inline cleanup).
AddSignature, modelled total, cannot fail. -/
def GetPublicShare (c : Config) (db : List Row) (now : DateTime) (uid : String)
    (ref : ShareRef) (sgn : Bool) : Except Err PublicShare × List Row :=
  let fetched : Except Err (PublicShare × String) :=
    match ref with
    | .byId i => getByID db i uid
    | .byToken t => if t = "" then .error .notFound else getByToken db t
  match fetched with
  | .error e => (.error e, db)
  | .ok (s, pw) =>
    if expired s now.toSec then
      (.error .notFound, cleanupExpiredShares c db now)
    else if s.passwordProtected && sgn then
      (.ok (addSignature s pw now.toSec), db)
    else
      (.ok s, db)

/-- GetPublicShareByToken in the source: public lookup by token only, no
orphan condition in the query; expired shares trigger cleanup and NotFound;
password-protected shares require a successful authenticate. -/
def GetPublicShareByToken (c : Config) (db : List Row) (now : DateTime) (tkn : String)
    (auth : PublicShareAuthentication) (sgn : Bool) : Except Err PublicShare × List Row :=
  match db.find? (anyTokenPred tkn) with
  | none => (.error .notFound, db)
  | some r =>
    let cs3Share := convertToCS3PublicShare r
    if expired cs3Share now.toSec then
      (.error .notFound, cleanupExpiredShares c db now)
    else if r.share_with ≠ "" then
      if authenticate cs3Share r.share_with now.toSec auth = false then
        (.error .invalidCredentials, db)
      else if sgn then
        (.ok (addSignature cs3Share r.share_with now.toSec), db)
      else
        (.ok cs3Share, db)
    else
      (.ok cs3Share, db)

/-- The explicit update kind of UpdatePublicShareRequest with the data of
its field group; invalid stands for the default branch of the switch. -/
inductive UpdateKind where
  | displayName (v : String)
  | permissions (v : Nat)
  | expiration (v : Nat)
  | password (v : String)
  | description (v : String)
  | invalid
deriving Repr, DecidableEq

/-- The row transformation of the UPDATE statement built by
UpdatePublicShare: the single column of the selected field group, plus
stime, which the statement always sets to the current epoch seconds. -/
def applyUpdate (cost : Nat) (k : UpdateKind) (now : Nat) (r : Row) : Row :=
  let r2 :=
    match k with
    | .displayName v => { r with share_name := v }
    | .permissions v => { r with permissions := v }
    | .expiration v => { r with expiration := some v }
    | .password v =>
      if v = "" then { r with share_with := "" }
      else { r with share_with := hashPassword v cost }
    | .description v => { r with description := v }
    | .invalid => r
  { r2 with stime := now }

/-- WHERE clause shared by the UPDATE of UpdatePublicShare and the DELETE of
RevokePublicShare: (id=? or token=?) AND (uid_owner=? or uid_initiator=?).
Note: no share_type and no orphan condition. -/
def updSelector (uid : String) (ref : ShareRef) (r : Row) : Bool :=
  match ref with
  | .byId i => decide (r.id = i ∧ (r.uid_owner = uid ∨ r.uid_initiator = uid))
  | .byToken t => decide (r.token = t ∧ (r.uid_owner = uid ∨ r.uid_initiator = uid))

/-- The default branch of the reference switch (neither id nor a non-empty
token): NotFound. -/
def refEmpty : ShareRef → Bool
  | .byId _ => false
  | .byToken t => t == ""

/-- UpdatePublicShare in the source: an invalid update type is rejected
before touching the store; the UPDATE is executed without inspecting the
rows-affected count; the refreshed share is then returned via
GetPublicShare on the same reference. -/
def UpdatePublicShare (c : Config) (db : List Row) (now : DateTime) (uid : String)
    (ref : ShareRef) (k : UpdateKind) : Except Err PublicShare × List Row :=
  if k = UpdateKind.invalid then (.error .internalError, db)
  else if refEmpty ref then (.error .notFound, db)
  else
    let db2 := db.map fun r =>
      if updSelector uid ref r then applyUpdate c.sharePasswordHashCost k now.toSec r else r
    GetPublicShare c db2 now uid ref false

/-- RevokePublicShare in the source: hard DELETE with the owner-or-creator
selector; a rows-affected count of zero is reported as NotFound. -/
def RevokePublicShare (db : List Row) (uid : String) (ref : ShareRef) :
    Except Err Unit × List Row :=
  if refEmpty ref then (.error .notFound, db)
  else if db.any (updSelector uid ref) then
    (.ok (), db.filter fun r => !updSelector uid ref r)
  else
    (.error .notFound, db)

/-- A ListPublicSharesRequest_Filter. -/
inductive Filter where
  | resource (storageId opaqueId : String)
  | owner (uid : String)
  | creator (uid : String)
deriving Repr, DecidableEq

/-- The OR-combined resource-id clause of ListPublicShares (absent when the
request carries no resource filter). -/
def resourcePred (fs : List Filter) (r : Row) : Bool :=
  let rs := fs.filterMap fun f =>
    match f with
    | .resource sid oid => some (sid, oid)
    | _ => none
  rs.isEmpty || rs.any fun so => decide (r.fileid_pref = so.1 ∧ r.item_source = so.2)

/-- The OR-combined owner clause of ListPublicShares. -/
def ownerPred (fs : List Filter) (r : Row) : Bool :=
  let rs := fs.filterMap fun f =>
    match f with
    | .owner uid => some uid
    | _ => none
  rs.isEmpty || rs.any fun uid => decide (r.uid_owner = uid)

/-- The OR-combined creator clause of ListPublicShares. -/
def creatorPred (fs : List Filter) (r : Row) : Bool :=
  let rs := fs.filterMap fun f =>
    match f with
    | .creator uid => some uid
    | _ => none
  rs.isEmpty || rs.any fun uid => decide (r.uid_initiator = uid)

structure User where
  uid : String
  groups : List String
deriving Repr, DecidableEq

/-- parts[4] of strings.SplitN(path, "/", 6) together with the
len(parts) < 5 guard of uidOwnerFilters.  Index 4 lies strictly below the
SplitN piece bound minus one, so SplitN agrees there with the unbounded
split, which splitSlash computes. -/
def splitSlash : List Char → List Char → List (List Char)
  | [], acc => [acc.reverse]
  | x :: xs, acc =>
    if x = '/' then acc.reverse :: splitSlash xs []
    else splitSlash xs (x :: acc)

def projectNameOf (path : String) : Option String :=
  ((splitSlash path.data []).map fun l => String.mk l)[4]?

/-- The admin-escalation scan of uidOwnerFilters: some resource filter
targets a project-space instance, the external Stat call (the stat
parameter; none models a failed or non-OK Stat) resolves its path, and the
caller belongs to the project admin group derived from the path. -/
def isProjectAdmin (stat : String → String → Option String) (u : User)
    (fs : List Filter) : Bool :=
  fs.any fun f =>
    match f with
    | .resource sid oid =>
      hasPfx sid projectInstancesPfx &&
        (match stat sid oid with
         | some path =>
           match projectNameOf path with
           | some proj =>
             u.groups.contains (projectSpaceGroupsPfx ++ proj ++ projectSpaceAdminGroupsSfx)
           | none => false
         | none => false)
    | _ => false

/-- uidOwnerFilters in the source, as the predicate it contributes to the
listing: unrestricted for a project admin, otherwise
uid_owner=? or uid_initiator=?. -/
def uidOwnerPred (stat : String → String → Option String) (u : User)
    (fs : List Filter) (r : Row) : Bool :=
  if isProjectAdmin stat u fs then true
  else decide (r.uid_owner = u.uid ∨ r.uid_initiator = u.uid)

/-- The full WHERE clause of the ListPublicShares query. -/
def listPred (stat : String → String → Option String) (u : User)
    (fs : List Filter) (r : Row) : Bool :=
  decide (r.orphan ≠ some true ∧ r.share_type = publicShareType ∧ r.internal = false) &&
    resourcePred fs r && ownerPred fs r && creatorPred fs r && uidOwnerPred stat u fs r

/-- ListPublicShares in the source.  Expired rows encountered during the
scan trigger the inline cleanup and are excluded from the result (the
repeated per-row cleanup calls collapse to one: the sweep is idempotent at
a fixed instant).  Scan errors, the gateway-client error and AddSignature
errors are modelled total, so the call always yields a list. -/
def ListPublicShares (c : Config) (db : List Row) (now : DateTime)
    (stat : String → String → Option String) (u : User) (fs : List Filter)
    (sgn : Bool) : List PublicShare × List Row :=
  let matched := db.filter (listPred stat u fs)
  let shares :=
    (matched.filter fun r => !expired (convertToCS3PublicShare r) now.toSec).map fun r =>
      let s := convertToCS3PublicShare r
      if s.passwordProtected && sgn then addSignature s r.share_with now.toSec else s
  let db2 :=
    if matched.any fun r => expired (convertToCS3PublicShare r) now.toSec then
      cleanupExpiredShares c db now
    else db
  (shares, db2)

structure Grant where
  permissions : Nat
  password : String
  expiration : Option Nat
deriving Repr, DecidableEq

/-- The slice of provider.ResourceInfo that CreatePublicShare consumes.
Identities arrive already formatted (conversions.FormatUserID). -/
structure ResourceInfo where
  owner : String
  storageId : String
  opaqueId : String
  itemType : String
  metadataName : Option String
  metadataQuicklink : Bool
deriving Repr, DecidableEq

/-- CreatePublicShare in the source.  The random 15-character token and the
store-assigned id are inputs of the model (the only non-determinism).  The
password is hashed when present; the expiration is stored only when its
seconds are non-zero; orphan is left NULL.  The returned share carries the
grant expiration verbatim and ctime = mtime = now. -/
def CreatePublicShare (c : Config) (db : List Row) (nextId : Nat) (tkn : String)
    (now : Nat) (uid : String) (rInfo : ResourceInfo) (g : Grant)
    (description : String) (internal : Bool) : PublicShare × List Row :=
  let displayName := rInfo.metadataName.getD tkn
  let row : Row :=
    { id := nextId
      share_type := publicShareType
      uid_owner := rInfo.owner
      uid_initiator := uid
      item_type := rInfo.itemType
      fileid_pref := rInfo.storageId
      item_source := rInfo.opaqueId
      file_source := (rInfo.opaqueId.toNat?).getD 0
      permissions := g.permissions
      stime := now
      token := tkn
      share_name := displayName
      quicklink := rInfo.metadataQuicklink
      description := description
      internal := internal
      share_with := if g.password = "" then "" else hashPassword g.password c.sharePasswordHashCost
      expiration :=
        match g.expiration with
        | some e => if e = 0 then none else some e
        | none => none
      orphan := none }
  let s : PublicShare :=
    { id := nextId
      token := tkn
      owner := rInfo.owner
      creator := uid
      storageId := rInfo.storageId
      opaqueId := rInfo.opaqueId
      permissions := g.permissions
      ctime := now
      expiration := g.expiration
      passwordProtected := decide (g.password ≠ "")
      displayName := displayName
      quicklink := rInfo.metadataQuicklink
      description := description
      signature := none }
  (s, db ++ [row])

/-! Concrete fixtures used by witnesses and counterexamples. -/

def cfg0 : Config := { sharePasswordHashCost := 11, enableExpiredSharesCleanup := false }

def cfgOn : Config := { sharePasswordHashCost := 11, enableExpiredSharesCleanup := true }

def sampleRow : Row :=
  { id := 1, share_type := publicShareType, uid_owner := "alice", uid_initiator := "alice",
    item_type := "file", fileid_pref := "storage-1", item_source := "42", file_source := 42,
    permissions := 1, stime := 100, token := "t", share_name := "t", quicklink := false,
    description := "", internal := false, share_with := "", expiration := none, orphan := none }

def noAuth : PublicShareAuthentication := { password := "", signature := none }

def stat1 : String → String → Option String := fun sid oid =>
  if sid = "newproject-c" ∧ oid = "rid" then some "/eos/project/c/cernbox" else none

def userBob : User := { uid := "bob", groups := ["cernbox-project-cernbox-admins"] }

def carolRow : Row :=
  { sampleRow with
    uid_owner := "carol"
    uid_initiator := "carol"
    fileid_pref := "newproject-c"
    item_source := "rid" }

def protRow : Row := { sampleRow with share_with := hashPassword "p@ss" 11 }

def rInfo0 : ResourceInfo :=
  { owner := "alice", storageId := "s", opaqueId := "42", itemType := "file",
    metadataName := none, metadataQuicklink := false }

def g0 : Grant := { permissions := 1, password := "", expiration := some 46799 }

/-! Helper lemmas. -/

theorem convert_expiration (r : Row) :
    (convertToCS3PublicShare r).expiration = r.expiration := rfl

theorem addSignature_expired (s : PublicShare) (pw : String) (n t : Nat) :
    expired (addSignature s pw n) t = expired s t := rfl

theorem map_update_noop (db : List Row) (f : Row → Row) (sel : Row → Bool)
    (h : ∀ r ∈ db, sel r = false) :
    (db.map fun r => if sel r then f r else r) = db := by
  induction db with
  | nil => rfl
  | cons a l ih =>
    have ha := h a (List.mem_cons_self a l)
    simp [ha, ih fun r hr => h r (List.mem_cons_of_mem a hr)]

theorem trimPfx_one_bar (x : String) : trimPfx ("1|" ++ x) "1|" = x := by
  have hdata : ("1|" ++ x).data = '1' :: '|' :: x.data := by
    simp [String.data_append]
  simp only [trimPfx, hdata]
  rw [if_pos (by simp [List.isPrefixOf])]
  rfl

theorem append_cancel_str (a p q : String) (h : a ++ p = a ++ q) : p = q := by
  apply String.ext
  have : (a ++ p).data = (a ++ q).data := by rw [h]
  simp only [String.data_append] at this
  exact List.append_cancel_left this

theorem hasPfx_self_append (a x : String) : hasPfx (a ++ x) a = true := by
  simp only [hasPfx, String.data_append]
  rw [List.isPrefixOf_iff_prefix]
  exact List.prefix_append a.data x.data

theorem expired_of_row (r : Row) (e now : Nat) (hexp : r.expiration = some e)
    (hlt : e < now) : expired (convertToCS3PublicShare r) now = true := by
  simp [expired, convertToCS3PublicShare, hexp, hlt]

/-- C1: a share whose expiration is in the past at call time is treated as
absent by every read path even when its orphan column is unset (or set):
GetPublicShare (by token and by id) returns NotFound, ListPublicShares
omits the share from the returned slice, and GetPublicShareByToken returns
NotFound.  The hypotheses say only that the respective query resolves the
reference to a row r whose expiration is set and strictly before now; no
assumption on r.orphan is made. -/
theorem c1_expired_reads_absent (c : Config) (db : List Row) (now : DateTime)
    (uid tkn : String) (i : Nat) (auth : PublicShareAuthentication) (sgn : Bool)
    (stat : String → String → Option String) (u : User) (fs : List Filter)
    (r : Row) (e : Nat) (hexp : r.expiration = some e) (hlt : e < now.toSec) :
    (db.find? (activeTokenPred tkn) = some r →
      (GetPublicShare c db now uid (.byToken tkn) sgn).1 = .error .notFound) ∧
    (db.find? (activeIdPred i uid) = some r →
      (GetPublicShare c db now uid (.byId i) sgn).1 = .error .notFound) ∧
    (convertToCS3PublicShare r ∉ (ListPublicShares c db now stat u fs sgn).1) ∧
    (db.find? (anyTokenPred tkn) = some r →
      (GetPublicShareByToken c db now tkn auth sgn).1 = .error .notFound) := by
  have hexpired := expired_of_row r e now.toSec hexp hlt
  refine ⟨?_, ?_, ?_, ?_⟩
  · intro hfind
    by_cases htk : tkn = ""
    · simp [GetPublicShare, htk]
    · simp [GetPublicShare, htk, getByToken, hfind, hexpired]
  · intro hfind
    simp [GetPublicShare, getByID, hfind, hexpired]
  · intro hmem
    simp only [ListPublicShares] at hmem
    obtain ⟨r2, hr2, heq⟩ := List.mem_map.1 hmem
    have hne : expired (convertToCS3PublicShare r2) now.toSec = false := by
      have := (List.mem_filter.1 hr2).2
      simpa using this
    have h2 : expired (if (convertToCS3PublicShare r2).passwordProtected && sgn then
        addSignature (convertToCS3PublicShare r2) r2.share_with now.toSec
      else convertToCS3PublicShare r2) now.toSec = false := by
      by_cases hp : (convertToCS3PublicShare r2).passwordProtected && sgn
      · simpa [hp, addSignature_expired] using hne
      · simpa [hp] using hne
    rw [heq] at h2
    rw [hexpired] at h2
    exact absurd h2 (by simp)
  · intro hfind
    simp [GetPublicShareByToken, hfind, hexpired]

/-- Witness for C1: a share expired at second 5, read at 01:00:00 of day 0
(second 3600), is absent from all four read paths. -/
theorem c1_witness :
    (GetPublicShare cfg0 [{ sampleRow with expiration := some 5 }] ⟨0,1,0,0⟩
        "alice" (.byToken "t") false).1 = .error .notFound ∧
    (GetPublicShare cfg0 [{ sampleRow with expiration := some 5 }] ⟨0,1,0,0⟩
        "alice" (.byId 1) false).1 = .error .notFound ∧
    convertToCS3PublicShare { sampleRow with expiration := some 5 } ∉
      (ListPublicShares cfg0 [{ sampleRow with expiration := some 5 }] ⟨0,1,0,0⟩
        (fun _ _ => none) { uid := "alice", groups := [] } [] false).1 ∧
    (GetPublicShareByToken cfg0 [{ sampleRow with expiration := some 5 }] ⟨0,1,0,0⟩
        "t" noAuth false).1 = .error .notFound := by
  have h := c1_expired_reads_absent cfg0 [{ sampleRow with expiration := some 5 }]
      ⟨0,1,0,0⟩ "alice" "t" 1 noAuth false (fun _ _ => none)
      { uid := "alice", groups := [] } [] { sampleRow with expiration := some 5 } 5
      rfl (by decide)
  exact ⟨h.1 rfl, h.2.1 rfl, h.2.2.1, h.2.2.2 rfl⟩

/-- C2 counterexample: the claim says every one of the read, list and
authenticate lookups excludes rows whose orphan flag is set, but the
GetPublicShareByToken query carries no orphan condition: a non-expired row
with orphan = true is returned by the authenticate-by-token path. -/
theorem c2_counterexample :
    ({ sampleRow with orphan := some true } : Row).orphan = some true ∧
    (GetPublicShareByToken cfg0 [{ sampleRow with orphan := some true }] ⟨0,1,0,0⟩
        "t" noAuth false).1
      = .ok (convertToCS3PublicShare { sampleRow with orphan := some true }) :=
  ⟨rfl, rfl⟩

/-- C2 amended: GetPublicShare (by token and by id) and ListPublicShares
resolve only rows whose orphan column is false or unset, but
GetPublicShareByToken does not filter on orphan: it returns any non-expired
row matching the token, regardless of the orphan flag (last conjunct: no
hypothesis on r.orphan). -/
theorem c2_amended :
    (∀ (db : List Row) (tkn : String) (r : Row),
      db.find? (activeTokenPred tkn) = some r → r.orphan ≠ some true) ∧
    (∀ (db : List Row) (i : Nat) (uid : String) (r : Row),
      db.find? (activeIdPred i uid) = some r → r.orphan ≠ some true) ∧
    (∀ (stat : String → String → Option String) (u : User) (fs : List Filter)
      (db : List Row) (r : Row),
      r ∈ db.filter (listPred stat u fs) → r.orphan ≠ some true) ∧
    (∀ (c : Config) (db : List Row) (now : DateTime) (tkn : String)
      (auth : PublicShareAuthentication) (r : Row),
      db.find? (anyTokenPred tkn) = some r →
      expired (convertToCS3PublicShare r) now.toSec = false →
      r.share_with = "" →
      (GetPublicShareByToken c db now tkn auth false).1
        = .ok (convertToCS3PublicShare r)) := by
  refine ⟨?_, ?_, ?_, ?_⟩
  · intro db tkn r h
    have := List.find?_some h
    simp [activeTokenPred] at this
    exact this.1
  · intro db i uid r h
    have := List.find?_some h
    simp [activeIdPred] at this
    exact this.1
  · intro stat u fs db r h
    have := (List.mem_filter.1 h).2
    simp [listPred] at this
    exact this.1.1.1.1.1
  · intro c db now tkn auth r hfind hexp hsw
    simp [GetPublicShareByToken, hfind, hexp, hsw]

/-- Witness for C2 amended: a row resolved by the orphan-filtered token
query indeed has its orphan flag unset. -/
theorem c2_witness : sampleRow.orphan ≠ some true :=
  c2_amended.1 [sampleRow] "t" sampleRow rfl

/-- C3 counterexample: the claim says verification becomes false once
now >= exp, but the source rejects only when now is strictly after the
expiration (now.After(expiration)): at now = exp = 100, with the matching
signature value, verification still returns true. -/
theorem c3_counterexample :
    authenticate (convertToCS3PublicShare sampleRow) "secret" 100
      { password := ""
        signature := some { sig := createSignature "t" "secret" 100, exp := 100 } } = true :=
  rfl

/-- C3 amended: signature verification succeeds iff the candidate equals the
freshly computed signature for (token, secret, expiration) AND now <= exp
(the code rejects only instants strictly after the expiration); in
particular verifying Sign(token, secret, exp) is true while now <= exp and
false once now > exp, with the same signature value. -/
theorem c3_amended (share : PublicShare) (secret cand : String) (e now : Nat) :
    (authenticate share secret now
        { password := "", signature := some { sig := cand, exp := e } } = true)
      ↔ (cand = createSignature share.token secret e ∧ now ≤ e) := by
  simp only [authenticate]
  by_cases h : now > e
  · simp [h]
  · have h2 : now ≤ e := by omega
    simp [h, h2]

/-- C4 counterexample: the claim says an Update whose selector matches zero
rows returns NotFound, but UpdatePublicShare never inspects the
rows-affected count: a caller who is neither owner nor creator, updating by
token, gets the unchanged share back (the follow-up token lookup is
unscoped), not NotFound. -/
theorem c4_counterexample :
    sampleRow.uid_owner ≠ "bob" ∧ sampleRow.uid_initiator ≠ "bob" ∧
    (UpdatePublicShare cfg0 [sampleRow] ⟨0,0,3,20⟩ "bob" (.byToken "t")
        (.displayName "x")).1 = .ok (convertToCS3PublicShare sampleRow) ∧
    (UpdatePublicShare cfg0 [sampleRow] ⟨0,0,3,20⟩ "bob" (.byToken "t")
        (.displayName "x")).2 = [sampleRow] :=
  ⟨by decide, by decide, rfl, rfl⟩

/-- C4 amended: Revoke with a zero-row selector returns NotFound, and Update
by id with a zero-row selector returns NotFound (through the owner-scoped
re-read); but Update by token whose selector matches zero rows while the
token itself resolves to a live share leaves the store unchanged and
returns that share, not NotFound. -/
theorem c4_amended :
    (∀ (db : List Row) (uid : String) (ref : ShareRef),
      (∀ r ∈ db, updSelector uid ref r = false) →
      RevokePublicShare db uid ref = (.error .notFound, db)) ∧
    (∀ (c : Config) (db : List Row) (now : DateTime) (uid : String) (i : Nat)
      (k : UpdateKind),
      k ≠ .invalid →
      (∀ r ∈ db, updSelector uid (.byId i) r = false) →
      (UpdatePublicShare c db now uid (.byId i) k).1 = .error .notFound) ∧
    (∀ (c : Config) (db : List Row) (now : DateTime) (uid t : String)
      (k : UpdateKind) (r : Row),
      k ≠ .invalid → t ≠ "" →
      (∀ r2 ∈ db, updSelector uid (.byToken t) r2 = false) →
      db.find? (activeTokenPred t) = some r →
      expired (convertToCS3PublicShare r) now.toSec = false →
      (UpdatePublicShare c db now uid (.byToken t) k).1
        = .ok (convertToCS3PublicShare r)) := by
  refine ⟨?_, ?_, ?_⟩
  · intro db uid ref h
    by_cases hre : refEmpty ref
    · simp [RevokePublicShare, hre]
    · have hany : db.any (updSelector uid ref) = false := by
        rw [List.any_eq_false]
        intro r hr
        simp [h r hr]
      simp [RevokePublicShare, hre, hany]
  · intro c db now uid i k hk h
    have hnoop := map_update_noop db
      (applyUpdate c.sharePasswordHashCost k now.toSec) (updSelector uid (.byId i)) h
    have hnone : db.find? (activeIdPred i uid) = none := by
      rw [List.find?_eq_none]
      intro r hr
      intro hp
      have := of_decide_eq_true hp
      have hsel : updSelector uid (.byId i) r = true := by
        simp [updSelector]
        exact ⟨this.2.2.1, this.2.2.2⟩
      rw [h r hr] at hsel
      exact Bool.false_ne_true hsel
    simp [UpdatePublicShare, hk, refEmpty, hnoop, GetPublicShare, getByID, hnone]
  · intro c db now uid t k r hk ht h hfind hexp
    have hnoop := map_update_noop db
      (applyUpdate c.sharePasswordHashCost k now.toSec) (updSelector uid (.byToken t)) h
    simp [UpdatePublicShare, hk, refEmpty, ht, hnoop, GetPublicShare, getByToken,
      hfind, hexp]

/-- Witness for C4 amended: Revoke by a stranger on an existing share id
matches zero rows and reports NotFound. -/
theorem c4_witness :
    RevokePublicShare [sampleRow] "bob" (.byId 1) = (.error .notFound, [sampleRow]) :=
  c4_amended.1 [sampleRow] "bob" (.byId 1) (by decide)

theorem ite_addSignature_owner (c : Prop) [Decidable c] (s : PublicShare)
    (pw : String) (n : Nat) :
    (if c then addSignature s pw n else s).owner = s.owner := by
  split <;> rfl

theorem ite_addSignature_creator (c : Prop) [Decidable c] (s : PublicShare)
    (pw : String) (n : Nat) :
    (if c then addSignature s pw n else s).creator = s.creator := by
  split <;> rfl

/-- C5: when some resource filter of a List call targets a project-space
resource (storage id with the project-instances prefix), the external Stat
resolves its path, and the caller belongs to the derived project admin
group, the base ownership predicate is replaced by an unrestricted one:
every matching live share is returned with no ownership condition (first
conjunct has no hypothesis relating r's owner or creator to the caller).
When the admin escalation does not fire, every returned share is owned or
created by the caller (second conjunct). -/
theorem c5_project_admin_listing (c : Config) (db : List Row) (now : DateTime)
    (stat : String → String → Option String) (u : User) (fs : List Filter) :
    (∀ (sid oid path proj : String),
      Filter.resource sid oid ∈ fs →
      hasPfx sid projectInstancesPfx = true →
      stat sid oid = some path →
      projectNameOf path = some proj →
      (projectSpaceGroupsPfx ++ proj ++ projectSpaceAdminGroupsSfx) ∈ u.groups →
      ∀ r ∈ db,
        r.orphan ≠ some true → r.share_type = publicShareType → r.internal = false →
        resourcePred fs r = true → ownerPred fs r = true → creatorPred fs r = true →
        expired (convertToCS3PublicShare r) now.toSec = false →
        convertToCS3PublicShare r ∈ (ListPublicShares c db now stat u fs false).1) ∧
    (∀ sgn : Bool, isProjectAdmin stat u fs = false →
      ∀ s ∈ (ListPublicShares c db now stat u fs sgn).1,
        s.owner = u.uid ∨ s.creator = u.uid) := by
  constructor
  · intro sid oid path proj hf hpfx hstat hproj hgrp r hr horf hty hint hres hown hcre hexp
    have hadmin : isProjectAdmin stat u fs = true := by
      rw [isProjectAdmin, List.any_eq_true]
      refine ⟨Filter.resource sid oid, hf, ?_⟩
      simp [hpfx, hstat, hproj, hgrp]
    have hlp : listPred stat u fs r = true := by
      simp [listPred, uidOwnerPred, hadmin, horf, hty, hint, hres, hown, hcre]
    simp only [ListPublicShares]
    refine List.mem_map.2 ⟨r, List.mem_filter.2 ⟨List.mem_filter.2 ⟨hr, hlp⟩, by simp [hexp]⟩, ?_⟩
    simp
  · intro sgn hadmin s hs
    simp only [ListPublicShares] at hs
    obtain ⟨r, hrf, heq⟩ := List.mem_map.1 hs
    have hlp := (List.mem_filter.1 (List.mem_filter.1 hrf).1).2
    simp [listPred, uidOwnerPred, hadmin] at hlp
    have hor : r.uid_owner = u.uid ∨ r.uid_initiator = u.uid := by tauto
    have h1 : s.owner = r.uid_owner := by
      rw [← heq, ite_addSignature_owner]
      rfl
    have h2 : s.creator = r.uid_initiator := by
      rw [← heq, ite_addSignature_creator]
      rfl
    rw [h1, h2]
    exact hor

/-- Witness for C5: admin caller bob (member of
cernbox-project-cernbox-admins) listing with a resource filter on the
project resource sees the share created and owned by carol. -/
theorem c5_witness :
    convertToCS3PublicShare carolRow ∈
      (ListPublicShares cfg0 [carolRow] ⟨0,1,0,0⟩ stat1 userBob
        [.resource "newproject-c" "rid"] false).1 :=
  (c5_project_admin_listing cfg0 [carolRow] ⟨0,1,0,0⟩ stat1 userBob
      [.resource "newproject-c" "rid"]).1
    "newproject-c" "rid" "/eos/project/c/cernbox" "cernbox"
    (by decide) (by decide) rfl rfl (by decide)
    carolRow (by decide) (by decide) rfl rfl rfl rfl rfl rfl

/-- C6: evaluation at the failing input.  With cleanup enabled, a share
created at 13:00:00 (second 46800 of day 0) with expiration one second in
the past: the immediate Get returns NotFound as claimed, but the row is
left with orphan unset, because the sweep's cutoff is the current time
rendered with the 12-hour layout "2006-01-02 03:04:05" (01:00:00, second
3600), and 46799 is not below it.  Last conjunct: the sweep run directly at
a PM instant leaves the expired row unmarked, contradicting the claim that
every sweep marks all rows with past expiration. -/
theorem c6_cleanup_divergence :
    cfgOn.enableExpiredSharesCleanup = true ∧
    (46799 : Nat) < DateTime.toSec ⟨0,13,0,0⟩ ∧
    (GetPublicShare cfgOn
        (CreatePublicShare cfgOn [] 1 "t" 46800 "alice" rInfo0 g0 "" false).2
        ⟨0,13,0,0⟩ "alice" (.byId 1) false).1 = .error .notFound ∧
    ((GetPublicShare cfgOn
        (CreatePublicShare cfgOn [] 1 "t" 46800 "alice" rInfo0 g0 "" false).2
        ⟨0,13,0,0⟩ "alice" (.byId 1) false).2).map Row.orphan = [none] ∧
    cleanupExpiredShares cfgOn
        [{ sampleRow with expiration := some 46799 }] ⟨0,13,0,0⟩
      = [{ sampleRow with expiration := some 46799 }] :=
  ⟨rfl, by decide, rfl, rfl, rfl⟩

/-- C7 counterexample: the claim says the creation timestamp (stime) is
never mutated after creation, but a successful display-name update by the
owner rewrites stime from 100 to the call time 200 (the UPDATE statement
always appends stime=now). -/
theorem c7_counterexample :
    sampleRow.stime = 100 ∧
    (UpdatePublicShare cfg0 [sampleRow] ⟨0,0,3,20⟩ "alice" (.byToken "t")
        (.displayName "x")).1
      = .ok (convertToCS3PublicShare { sampleRow with share_name := "x", stime := 200 }) ∧
    ((UpdatePublicShare cfg0 [sampleRow] ⟨0,0,3,20⟩ "alice" (.byToken "t")
        (.displayName "x")).2).map Row.stime = [200] :=
  ⟨rfl, rfl, rfl⟩

/-- C7 amended: a successful update rewrites only the column of the
selected field group and the stime column, which is set to the call time;
every other stored field of the selected row is unchanged, and rows not
matched by the selector are written back unchanged (final conjunct: the
operation is exactly the selector-guarded per-row transformation followed
by the re-read). -/
theorem c7_update_frame (cost now : Nat) (r : Row) (k : UpdateKind) :
    ((applyUpdate cost k now r).id = r.id ∧
     (applyUpdate cost k now r).share_type = r.share_type ∧
     (applyUpdate cost k now r).uid_owner = r.uid_owner ∧
     (applyUpdate cost k now r).uid_initiator = r.uid_initiator ∧
     (applyUpdate cost k now r).item_type = r.item_type ∧
     (applyUpdate cost k now r).fileid_pref = r.fileid_pref ∧
     (applyUpdate cost k now r).item_source = r.item_source ∧
     (applyUpdate cost k now r).file_source = r.file_source ∧
     (applyUpdate cost k now r).token = r.token ∧
     (applyUpdate cost k now r).quicklink = r.quicklink ∧
     (applyUpdate cost k now r).internal = r.internal ∧
     (applyUpdate cost k now r).orphan = r.orphan) ∧
    (applyUpdate cost k now r).stime = now ∧
    (∀ v : String,
      (applyUpdate cost (.displayName v) now r).permissions = r.permissions ∧
      (applyUpdate cost (.displayName v) now r).expiration = r.expiration ∧
      (applyUpdate cost (.displayName v) now r).share_with = r.share_with ∧
      (applyUpdate cost (.displayName v) now r).description = r.description) ∧
    (∀ v : Nat,
      (applyUpdate cost (.permissions v) now r).share_name = r.share_name ∧
      (applyUpdate cost (.permissions v) now r).expiration = r.expiration ∧
      (applyUpdate cost (.permissions v) now r).share_with = r.share_with ∧
      (applyUpdate cost (.permissions v) now r).description = r.description) ∧
    (∀ v : Nat,
      (applyUpdate cost (.expiration v) now r).share_name = r.share_name ∧
      (applyUpdate cost (.expiration v) now r).permissions = r.permissions ∧
      (applyUpdate cost (.expiration v) now r).share_with = r.share_with ∧
      (applyUpdate cost (.expiration v) now r).description = r.description) ∧
    (∀ v : String,
      (applyUpdate cost (.password v) now r).share_name = r.share_name ∧
      (applyUpdate cost (.password v) now r).permissions = r.permissions ∧
      (applyUpdate cost (.password v) now r).expiration = r.expiration ∧
      (applyUpdate cost (.password v) now r).description = r.description) ∧
    (∀ v : String,
      (applyUpdate cost (.description v) now r).share_name = r.share_name ∧
      (applyUpdate cost (.description v) now r).permissions = r.permissions ∧
      (applyUpdate cost (.description v) now r).expiration = r.expiration ∧
      (applyUpdate cost (.description v) now r).share_with = r.share_with) ∧
    (∀ (c : Config) (db : List Row) (dt : DateTime) (uid : String) (ref : ShareRef)
      (k2 : UpdateKind),
      k2 ≠ .invalid → refEmpty ref = false →
      UpdatePublicShare c db dt uid ref k2 =
        GetPublicShare c
          (db.map fun r2 => if updSelector uid ref r2 then
            applyUpdate c.sharePasswordHashCost k2 dt.toSec r2 else r2)
          dt uid ref false) := by
  refine ⟨?_, ?_, ?_, ?_, ?_, ?_, ?_, ?_⟩
  · cases k <;>
      first
      | (simp only [applyUpdate]; split <;> simp)
      | simp [applyUpdate]
  · cases k <;> simp [applyUpdate]
  · intro v; exact ⟨rfl, rfl, rfl, rfl⟩
  · intro v; exact ⟨rfl, rfl, rfl, rfl⟩
  · intro v; exact ⟨rfl, rfl, rfl, rfl⟩
  · intro v
    refine ⟨?_, ?_, ?_, ?_⟩ <;> simp [applyUpdate] <;> split <;> rfl
  · intro v; exact ⟨rfl, rfl, rfl, rfl⟩
  · intro c2 db dt uid ref k2 hk2 href
    simp [UpdatePublicShare, hk2, href]

/-- Witness for C7 amended: the display-name update decomposes into the
selector-guarded applyUpdate map followed by the re-read. -/
theorem c7_witness :
    UpdatePublicShare cfg0 [sampleRow] ⟨0,0,3,20⟩ "alice" (.byToken "t") (.displayName "x") =
      GetPublicShare cfg0
        ([sampleRow].map fun r2 => if updSelector "alice" (.byToken "t") r2 then
          applyUpdate 11 (.displayName "x") 200 r2 else r2)
        ⟨0,0,3,20⟩ "alice" (.byToken "t") false :=
  (c7_update_frame 11 200 sampleRow (.displayName "x")).2.2.2.2.2.2.2
    cfg0 [sampleRow] ⟨0,0,3,20⟩ "alice" (.byToken "t") (.displayName "x")
    (by decide) rfl

/-- C8 counterexample: the claim says every store query is scoped to the
public-link share type, but the orphan-marking sweep carries no share_type
condition: with cleanup enabled it sets orphan = 1 on an expired row of
share type 0 (another sharing mechanism). -/
theorem c8_counterexample :
    ({ sampleRow with share_type := 0, expiration := some 0 } : Row).share_type
      ≠ publicShareType ∧
    cleanupExpiredShares cfgOn
        [{ sampleRow with share_type := 0, expiration := some 0 }] ⟨0,1,0,0⟩
      = [{ sampleRow with share_type := 0, expiration := some 0, orphan := some true }] :=
  ⟨by decide, rfl⟩

/-- C8 amended: the lookup, listing and authenticate queries and the insert
are scoped to share_type = 3, but the UPDATE of UpdatePublicShare, the
DELETE of RevokePublicShare and the orphan-marking sweep carry no share
type condition: their selectors are insensitive to share_type (sixth
conjunct) and the sweep marks any expired row regardless of its type
(seventh conjunct). -/
theorem c8_amended :
    (∀ (db : List Row) (tkn : String) (r : Row),
      db.find? (activeTokenPred tkn) = some r → r.share_type = publicShareType) ∧
    (∀ (db : List Row) (i : Nat) (uid : String) (r : Row),
      db.find? (activeIdPred i uid) = some r → r.share_type = publicShareType) ∧
    (∀ (db : List Row) (tkn : String) (r : Row),
      db.find? (anyTokenPred tkn) = some r → r.share_type = publicShareType) ∧
    (∀ (stat : String → String → Option String) (u : User) (fs : List Filter)
      (db : List Row) (r : Row),
      r ∈ db.filter (listPred stat u fs) → r.share_type = publicShareType) ∧
    (∀ (c : Config) (db : List Row) (nid : Nat) (tkn : String) (now : Nat)
      (uid : String) (ri : ResourceInfo) (g : Grant) (d : String) (ifl : Bool),
      ((CreatePublicShare c db nid tkn now uid ri g d ifl).2).map Row.share_type
        = db.map Row.share_type ++ [publicShareType]) ∧
    (∀ (uid : String) (ref : ShareRef) (r : Row) (t : Nat),
      updSelector uid ref { r with share_type := t } = updSelector uid ref r) ∧
    (∀ (c : Config) (db : List Row) (now : DateTime) (r : Row) (e : Nat),
      c.enableExpiredSharesCleanup = true → r ∈ db →
      r.expiration = some e → e < cleanupCutoff now →
      { r with orphan := some true } ∈ cleanupExpiredShares c db now) := by
  refine ⟨?_, ?_, ?_, ?_, ?_, ?_, ?_⟩
  · intro db tkn r h
    have := List.find?_some h
    simp [activeTokenPred] at this
    exact this.2.1
  · intro db i uid r h
    have := List.find?_some h
    simp [activeIdPred] at this
    exact this.2.1
  · intro db tkn r h
    have := List.find?_some h
    simp [anyTokenPred] at this
    exact this.1
  · intro stat u fs db r h
    have := (List.mem_filter.1 h).2
    simp [listPred] at this
    exact this.1.1.1.1.2.1
  · intro c db nid tkn now uid ri g d ifl
    simp [CreatePublicShare]
  · intro uid ref r t
    cases ref <;> simp [updSelector]
  · intro c db now r e hen hr hexp hlt
    rw [cleanupExpiredShares, if_pos hen]
    exact List.mem_map.2 ⟨r, hr, by simp [hexp, hlt]⟩

/-- Witness for C8 amended: a row resolved by the token lookup carries the
public-link share type. -/
theorem c8_witness : sampleRow.share_type = publicShareType :=
  c8_amended.1 [sampleRow] "t" sampleRow rfl


/-- C9: the password round trip.  Verifying the plaintext against
Hash(plaintext, cost) succeeds for any cost >= 4, verifying a different
plaintext fails, and a stored hash that does not carry a well-formed
bcrypt body after the version tag is treated as non-matching (verification
is a total Bool function: it cannot throw). -/
theorem c9_password_roundtrip (p q : String) (cost : Nat) (h : 4 ≤ cost) :
    checkPasswordHash p (hashPassword p cost) = true ∧
    (q ≠ p → checkPasswordHash q (hashPassword p cost) = false) ∧
    (∀ hsh : String, hasPfx (trimPfx hsh "1|") "$2a$" = false →
      checkPasswordHash p hsh = false) := by
  refine ⟨?_, ?_, ?_⟩
  · rw [checkPasswordHash, hashPassword, trimPfx_one_bar]
    simp [bcryptCompareHashAndPassword, bcryptGenerateFromPassword]
  · intro hne
    rw [checkPasswordHash, hashPassword, trimPfx_one_bar]
    rw [bcryptCompareHashAndPassword, bcryptGenerateFromPassword, bcryptGenerateFromPassword]
    rw [beq_eq_false_iff_ne]
    intro heq
    exact hne (append_cancel_str "$2a$" p q heq).symm
  · intro hsh hnp
    rw [checkPasswordHash, bcryptCompareHashAndPassword, bcryptGenerateFromPassword]
    by_contra hx
    rw [Bool.not_eq_false, beq_iff_eq] at hx
    rw [hx, hasPfx_self_append] at hnp
    exact absurd hnp (by simp)

/-- Witness for C9 at cost 4 with the plaintexts of Scenario A. -/
theorem c9_witness :
    (4 : Nat) ≤ 4 ∧ checkPasswordHash "p@ss" (hashPassword "p@ss" 4) = true ∧
    checkPasswordHash "wrong" (hashPassword "p@ss" 4) = false :=
  ⟨by decide, (c9_password_roundtrip "p@ss" "wrong" 4 (by decide)).1,
   (c9_password_roundtrip "p@ss" "wrong" 4 (by decide)).2.1 (by decide)⟩

/-- C10: in GetPublicShareByToken on a password-protected share, a
non-empty password in the attempt is decisive on its own: authenticate
reduces to the stored-hash check with the signature ignored (first
conjunct, any sig), so a wrong password fails the call with
InvalidCredentials even when the attempt carries a signature (second
conjunct); an attempt with neither password nor signature is rejected with
InvalidCredentials (third conjunct). -/
theorem c10_password_decisive :
    (∀ (share : PublicShare) (pw : String) (now : Nat) (pwd : String)
      (sig : Option Signature),
      pwd ≠ "" →
      authenticate share pw now { password := pwd, signature := sig }
        = checkPasswordHash pwd pw) ∧
    (∀ (c : Config) (db : List Row) (now : DateTime) (tkn : String) (r : Row)
      (sgn : Bool) (pwd : String) (sig : Option Signature),
      db.find? (anyTokenPred tkn) = some r →
      expired (convertToCS3PublicShare r) now.toSec = false →
      r.share_with ≠ "" → pwd ≠ "" →
      checkPasswordHash pwd r.share_with = false →
      (GetPublicShareByToken c db now tkn { password := pwd, signature := sig } sgn).1
        = .error .invalidCredentials) ∧
    (∀ (c : Config) (db : List Row) (now : DateTime) (tkn : String) (r : Row)
      (sgn : Bool),
      db.find? (anyTokenPred tkn) = some r →
      expired (convertToCS3PublicShare r) now.toSec = false →
      r.share_with ≠ "" →
      (GetPublicShareByToken c db now tkn { password := "", signature := none } sgn).1
        = .error .invalidCredentials) := by
  refine ⟨?_, ?_, ?_⟩
  · intro share pw now pwd sig hpwd
    simp [authenticate, hpwd]
  · intro c db now tkn r sgn pwd sig hfind hexp hsw hpwd hchk
    have hauth : authenticate (convertToCS3PublicShare r) r.share_with now.toSec
        { password := pwd, signature := sig } = false := by
      simp [authenticate, hpwd, hchk]
    simp [GetPublicShareByToken, hfind, hexp, hsw, hauth]
  · intro c db now tkn r sgn hfind hexp hsw
    have hauth : authenticate (convertToCS3PublicShare r) r.share_with now.toSec
        { password := "", signature := none } = false := by
      simp [authenticate]
    simp [GetPublicShareByToken, hfind, hexp, hsw, hauth]

/-- Witness for C10: the attempt carries a signature that on its own
verifies (first conjunct), yet the wrong password makes the call fail;
the empty attempt also fails. -/
theorem c10_witness :
    authenticate (convertToCS3PublicShare protRow) protRow.share_with 3600
      { password := ""
        signature := some { sig := createSignature "t" (hashPassword "p@ss" 11) 999999
                            exp := 999999 } } = true ∧
    (GetPublicShareByToken cfg0 [protRow] ⟨0,1,0,0⟩ "t"
      { password := "wrong"
        signature := some { sig := createSignature "t" (hashPassword "p@ss" 11) 999999
                            exp := 999999 } } false).1 = .error .invalidCredentials ∧
    (GetPublicShareByToken cfg0 [protRow] ⟨0,1,0,0⟩ "t" noAuth false).1
      = .error .invalidCredentials := by
  refine ⟨rfl, ?_, ?_⟩
  · exact c10_password_decisive.2.1 cfg0 [protRow] ⟨0,1,0,0⟩ "t" protRow false "wrong"
      (some { sig := createSignature "t" (hashPassword "p@ss" 11) 999999, exp := 999999 })
      rfl rfl (by decide) (by decide) (by decide)
  · exact c10_password_decisive.2.2 cfg0 [protRow] ⟨0,1,0,0⟩ "t" protRow false
      rfl rfl (by decide)

end PublicShareSQL
